import Mathlib

set_option maxRecDepth 4000

/-!
Verification of the card-agent workflow (`src/card_agent_graph.py`).

The Python program is a LangGraph workflow over a `CardState` TypedDict
(`total=False`, so every key is optional).  Each graph node returns a partial
update dictionary that LangGraph merges into the accumulated state
(present keys overwrite).  We embed:

* the parsed model responses (`IntentJson`, `PlanJson`) — the agents' behaviour
  depends only on whether `json.loads` succeeds (a raised exception, or a
  non-dict value whose `.get` raises, is the `none` case) and on the `.get`
  results of the parsed object;  a JSON value that is not a string compares
  unequal to every string literal in the code, exactly like an unrecognized
  string, so string-valued fields model all behaviours the claims concern;
* the state dictionary (`CardState`) with `none` = key absent (the `messages`
  key is declared in the TypedDict but never read or written by any node, so
  it is omitted);
* every node and routing function of `build_graph`, translated line by line;
* the run loop itself, which lives in the `langgraph` library (not in `src/`)
  and is therefore modelled from the spec (§4.5/§9): the effective behaviour
  "dispatch → increment → decide".
-/

namespace CardAgent

/-- A parsed planner JSON object; a `none` field means the key is absent. -/
structure PlanJson where
  next_action : Option String := none
  intent : Option String := none
  assistant_message : Option String := none
  reason : Option String := none
deriving DecidableEq

/-- A parsed intent-classifier JSON object; `none` = key absent. -/
structure IntentJson where
  intent : Option String := none
  reason : Option String := none
deriving DecidableEq

/-- The `CardState` dictionary (a `total=False` TypedDict): every key optional.  The same
type also represents the partial update dictionaries the nodes return. -/
structure CardState where
  user_input : Option String := none
  intent : Option String := none
  intent_reason : Option String := none
  validated : Option Bool := none
  validation_reason : Option String := none
  result : Option String := none
  assistant_message : Option String := none
  next_action : Option String := none
  plan_reason : Option String := none
  step_count : Option Nat := none
deriving DecidableEq

/-- Merge of one optional key: a key present in the update overwrites. -/
def mergeField {α : Type} (u s : Option α) : Option α :=
  match u with
  | some v => some v
  | none => s

/-- Modelled from the spec: LangGraph's merge of a node's partial update into
the state (§3, "each step produces a partial update merged into the
accumulated state"); the `langgraph` library is not in `src/`. -/
def applyUpdate (s u : CardState) : CardState where
  user_input := mergeField u.user_input s.user_input
  intent := mergeField u.intent s.intent
  intent_reason := mergeField u.intent_reason s.intent_reason
  validated := mergeField u.validated s.validated
  validation_reason := mergeField u.validation_reason s.validation_reason
  result := mergeField u.result s.result
  assistant_message := mergeField u.assistant_message s.assistant_message
  next_action := mergeField u.next_action s.next_action
  plan_reason := mergeField u.plan_reason s.plan_reason
  step_count := mergeField u.step_count s.step_count

/-- Embedding of `intent_agent` (agents.py): `resp` is the parsed gateway response,
`none` when `json.loads(text)` (or `.get` on a non-dict) raises. -/
def intent_agent (resp : Option IntentJson) : CardState :=
  match resp with
  | some parsed =>
      { intent := some (parsed.intent.getD "unknown")
        intent_reason := some (parsed.reason.getD "") }
  | none => { intent := some "unknown", intent_reason := some "parse_error" }

/-- Embedding of `planner_agent` (agents.py): parse the gateway response, defaulting a
missing `next_action` to `"finish"` and a missing `intent` to the state's
current intent (itself defaulting to `"unknown"`); on parse failure return
the fixed safe decision. -/
def planner_agent (resp : Option PlanJson) (state : CardState) : CardState :=
  match resp with
  | some plan =>
      { next_action := some (plan.next_action.getD "finish")
        assistant_message := some (plan.assistant_message.getD "")
        intent := some (plan.intent.getD (state.intent.getD "unknown"))
        plan_reason := some (plan.reason.getD "") }
  | none =>
      { next_action := some "finish"
        assistant_message := some "I'm sorry, I couldn't process that."
        plan_reason := some "parse_error" }

/-- The annotation the guard appends to `plan_reason`. -/
def guardNote : String := " | Guarded: validating before action"

/-- Python character slice `text[:n]`. -/
def sliceTo (s : String) (n : Nat) : String := String.mk (s.data.take n)

/-- Embedding of `planner_node` (graph.py): run the planner, then the auto-guard — if the
planner suggests `replace`/`cancel` but the state is not validated, flip the
action to `validate` and annotate the rationale (sliced to 500 chars). -/
def planner_node (resp : Option PlanJson) (state : CardState) : CardState :=
  let out := planner_agent resp state
  if (out.next_action = some "replace" ∨ out.next_action = some "cancel")
      ∧ state.validated.getD false = false then
    { out with
        next_action := some "validate"
        plan_reason := some (sliceTo (out.plan_reason.getD "" ++ guardNote) 500) }
  else out

/-- Embedding of `validate_ownership_tool` (tools.py). -/
def validate_ownership_tool (_state : CardState) : CardState :=
  { validated := some true, validation_reason := some "Mock validation passed." }

/-- Embedding of `replace_card_tool` (tools.py). -/
def replace_card_tool (_state : CardState) : CardState :=
  { result := some "✅ Replacement completed. A new card will arrive in 5–7 business days." }

/-- Embedding of `cancel_card_tool` (tools.py). -/
def cancel_card_tool (_state : CardState) : CardState :=
  { result := some "🛑 Cancellation completed. Your card is now inactive." }

/-- Embedding of `tool_node` (graph.py): dispatch on `state.get("next_action", "finish")`. -/
def tool_node (state : CardState) : CardState :=
  let action := state.next_action.getD "finish"
  if action = "validate" then validate_ownership_tool state
  else if action = "replace" then replace_card_tool state
  else if action = "cancel" then cancel_card_tool state
  else {}

/-- The three side-effecting operations. -/
inductive Tool
  | validateT
  | replaceT
  | cancelT
deriving DecidableEq

/-- Which operation `tool_node` invokes, mirroring its branch structure
(`none` = no operation invoked). -/
def invokedTool (state : CardState) : Option Tool :=
  let action := state.next_action.getD "finish"
  if action = "validate" then some Tool.validateT
  else if action = "replace" then some Tool.replaceT
  else if action = "cancel" then some Tool.cancelT
  else none

/-- Embedding of `step_node` (graph.py): increment `step_count` (default 0). -/
def step_node (state : CardState) : CardState :=
  { step_count := some (state.step_count.getD 0 + 1) }

/-- Routing targets of the conditional edges (`END`, `"tool"`, `"planner"`). -/
inductive Target
  | endT
  | toolT
  | plannerT
deriving DecidableEq

/-- Embedding of `route_after_planner` (graph.py): `state.get("next_action") == "finish"`
goes to `END`, anything else (including an absent key) goes to the tool node. -/
def route_after_planner (state : CardState) : Target :=
  if state.next_action = some "finish" then Target.endT else Target.toolT

/-- Python truthiness of `state.get("result")`: absent and `""` are falsy. -/
def resultTruthy (state : CardState) : Bool :=
  match state.result with
  | some r => r != ""
  | none => false

/-- Embedding of `route_after_tool` (graph.py): finish on a truthy `result`, finish when
`step_count >= max_steps`, else plan again. -/
def route_after_tool (max_steps : Nat) (state : CardState) : Target :=
  if resultTruthy state then Target.endT
  else if max_steps ≤ state.step_count.getD 0 then Target.endT
  else Target.plannerT

/-- One recorded dispatch cycle: the pre-dispatch state's `validated` flag,
the dispatched action string, and the operation `tool_node` invoked. -/
structure Dispatch where
  preValidated : Bool
  action : String
  tool : Option Tool
deriving DecidableEq

/-- The dispatch record taken from the pre-dispatch state. -/
def dispatchOf (s : CardState) : Dispatch :=
  ⟨s.validated.getD false, s.next_action.getD "finish", invokedTool s⟩

/-- One planning step: merge the guarded planner output into the state. -/
def planStep (resp : Option PlanJson) (s : CardState) : CardState :=
  applyUpdate s (planner_node resp s)

/-- One dispatch-and-increment step ("dispatch → increment"): merge the tool
output, then the step-counter output. -/
def dispatchStep (s : CardState) : CardState :=
  let s2 := applyUpdate s (tool_node s)
  applyUpdate s2 (step_node s2)

/-- Modelled from the spec: the execution of the compiled graph from the
planner node on (the `langgraph` scheduler is not in `src/`).  Per §4.5 and
the §9 design note the adopted effective behaviour is
"dispatch → increment → decide": plan, stop if the guarded decision routes to
`END`, otherwise dispatch and increment, then stop or loop per
`route_after_tool`.  `plans k` is the parsed gateway response to the k-th
planner call; `fuel` bounds the recursion and is shown sufficient below.
Returns the final state and the list of dispatch cycles performed. -/
def loop (plans : Nat → Option PlanJson) (max_steps : Nat) :
    Nat → Nat → CardState → Option (CardState × List Dispatch)
  | 0, _, _ => none
  | fuel + 1, k, s =>
    let s1 := planStep (plans k) s
    if route_after_planner s1 = Target.endT then some (s1, [])
    else
      let s3 := dispatchStep s1
      if route_after_tool max_steps s3 = Target.endT then some (s3, [dispatchOf s1])
      else (loop plans max_steps fuel (k + 1) s3).map (fun r => (r.1, dispatchOf s1 :: r.2))

/-- The initial state built by the caller (app.py): `{"user_input": text}`. -/
def initState (user_input : String) : CardState :=
  { user_input := some user_input }

/-- Modelled from the spec: a full run of the compiled graph — classify, then
the planner/tool/step loop.  `intentResp` is the parsed gateway response to
the classifier call. -/
def run (intentResp : Option IntentJson) (plans : Nat → Option PlanJson)
    (user_input : String) (max_steps : Nat) : Option (CardState × List Dispatch) :=
  loop plans max_steps (max_steps + 1) 0
    (applyUpdate (initState user_input) (intent_agent intentResp))

/-- A planner oracle that always answers with action `validate`. -/
def alwaysValidatePlan : Nat → Option PlanJson :=
  fun _ => some { next_action := some "validate" }

/-- A planner oracle that always answers with the unrecognized action `explode`. -/
def alwaysExplodePlan : Nat → Option PlanJson :=
  fun _ => some { next_action := some "explode" }


@[simp] theorem mergeField_some {α : Type} (v : α) (s : Option α) :
    mergeField (some v) s = some v := rfl

@[simp] theorem mergeField_none {α : Type} (s : Option α) :
    mergeField none s = s := rfl

theorem planner_agent_validated (r : Option PlanJson) (s : CardState) :
    (planner_agent r s).validated = none := by cases r <;> rfl

theorem planner_agent_step_count (r : Option PlanJson) (s : CardState) :
    (planner_agent r s).step_count = none := by cases r <;> rfl

theorem planner_agent_result (r : Option PlanJson) (s : CardState) :
    (planner_agent r s).result = none := by cases r <;> rfl

theorem planner_node_validated (r : Option PlanJson) (s : CardState) :
    (planner_node r s).validated = none := by
  unfold planner_node
  dsimp only
  split
  · exact planner_agent_validated r s
  · exact planner_agent_validated r s

theorem planner_node_step_count (r : Option PlanJson) (s : CardState) :
    (planner_node r s).step_count = none := by
  unfold planner_node
  dsimp only
  split
  · exact planner_agent_step_count r s
  · exact planner_agent_step_count r s

theorem tool_node_validated (s : CardState) :
    (tool_node s).validated = none ∨ (tool_node s).validated = some true := by
  unfold tool_node
  dsimp only
  split_ifs <;> simp [validate_ownership_tool, replace_card_tool, cancel_card_tool]

theorem tool_node_step_count (s : CardState) :
    (tool_node s).step_count = none := by
  unfold tool_node
  dsimp only
  split_ifs <;> rfl

theorem step_node_validated (s : CardState) : (step_node s).validated = none := rfl

theorem applyUpdate_step_count_of_none {s u : CardState} (h : u.step_count = none) :
    (applyUpdate s u).step_count = s.step_count := by
  simp [applyUpdate, h]

theorem applyUpdate_validated_of_none {s u : CardState} (h : u.validated = none) :
    (applyUpdate s u).validated = s.validated := by
  simp [applyUpdate, h]

theorem guard_safe_aux (r : Option PlanJson) (s : CardState)
    (hv : s.validated.getD false = false) :
    (planner_node r s).next_action ≠ some "replace"
      ∧ (planner_node r s).next_action ≠ some "cancel" := by
  unfold planner_node
  dsimp only
  split
  case isTrue h => simp
  case isFalse h =>
    push_neg at h
    constructor
    · intro hc
      exact absurd hv (by simpa using h (Or.inl hc))
    · intro hc
      exact absurd hv (by simpa using h (Or.inr hc))

theorem planner_node_next_action_some (r : Option PlanJson) (s : CardState) :
    ∃ v, (planner_node r s).next_action = some v := by
  unfold planner_node
  dsimp only
  split
  · exact ⟨"validate", rfl⟩
  · cases r with
    | some plan => exact ⟨plan.next_action.getD "finish", rfl⟩
    | none => exact ⟨"finish", rfl⟩


theorem planStep_validated (r : Option PlanJson) (s : CardState) :
    (planStep r s).validated = s.validated := by
  unfold planStep
  exact applyUpdate_validated_of_none (planner_node_validated r s)

theorem planStep_step_count (r : Option PlanJson) (s : CardState) :
    (planStep r s).step_count = s.step_count := by
  unfold planStep
  exact applyUpdate_step_count_of_none (planner_node_step_count r s)

theorem planStep_next_action (r : Option PlanJson) (s : CardState) :
    (planStep r s).next_action = (planner_node r s).next_action := by
  obtain ⟨v, hv⟩ := planner_node_next_action_some r s
  unfold planStep
  simp [applyUpdate, hv]

theorem dispatchStep_step_count (s : CardState) :
    (dispatchStep s).step_count = some (s.step_count.getD 0 + 1) := by
  unfold dispatchStep
  dsimp only
  have h2 : (applyUpdate s (tool_node s)).step_count = s.step_count :=
    applyUpdate_step_count_of_none (tool_node_step_count s)
  simp [applyUpdate, step_node, tool_node_step_count]

theorem dispatchStep_validated_true {s : CardState} (h : s.validated = some true) :
    (dispatchStep s).validated = some true := by
  unfold dispatchStep
  dsimp only
  have h1 : (applyUpdate s (tool_node s)).validated = some true := by
    rcases tool_node_validated s with hv | hv <;> simp [applyUpdate, hv, h]
  rw [applyUpdate_validated_of_none (step_node_validated _), h1]

theorem route_after_tool_ne_endT {m : Nat} {s : CardState}
    (h : route_after_tool m s ≠ Target.endT) : s.step_count.getD 0 < m := by
  unfold route_after_tool at h
  split_ifs at h with h1 h2
  · exact absurd rfl h
  · exact absurd rfl h
  · omega

theorem invokedTool_not_destructive {s : CardState}
    (h1 : s.next_action.getD "finish" ≠ "replace")
    (h2 : s.next_action.getD "finish" ≠ "cancel") :
    invokedTool s ≠ some Tool.replaceT ∧ invokedTool s ≠ some Tool.cancelT := by
  unfold invokedTool
  dsimp only
  split_ifs <;> simp_all


theorem loop_isSome (plans : Nat → Option PlanJson) (max_steps : Nat) :
    ∀ (fuel k : Nat) (s : CardState),
      s.step_count.getD 0 ≤ max_steps →
      max_steps + 1 ≤ s.step_count.getD 0 + fuel →
      (loop plans max_steps fuel k s).isSome := by
  intro fuel
  induction fuel with
  | zero => intro k s hle hfuel; omega
  | succ n ih =>
    intro k s hle hfuel
    rw [loop]
    dsimp only
    split_ifs with h1 h2
    · simp
    · simp
    · have hc3 : (dispatchStep (planStep (plans k) s)).step_count.getD 0
          = s.step_count.getD 0 + 1 := by
        rw [dispatchStep_step_count, planStep_step_count]
        simp
      have hlt := route_after_tool_ne_endT h2
      rw [hc3] at hlt
      have := ih (k + 1) (dispatchStep (planStep (plans k) s))
        (by omega) (by omega)
      simpa using this

theorem loop_step_count (plans : Nat → Option PlanJson) (max_steps : Nat) :
    ∀ (fuel k : Nat) (s st : CardState) (tr : List Dispatch),
      loop plans max_steps fuel k s = some (st, tr) →
      st.step_count.getD 0 = s.step_count.getD 0 + tr.length := by
  intro fuel
  induction fuel with
  | zero => intro k s st tr h; simp [loop] at h
  | succ n ih =>
    intro k s st tr h
    rw [loop] at h
    dsimp only at h
    split_ifs at h with h1 h2
    · obtain ⟨hst, htr⟩ := Prod.mk.injEq .. ▸ Option.some.inj h
      subst hst htr
      simp [planStep_step_count]
    · obtain ⟨hst, htr⟩ := Prod.mk.injEq .. ▸ Option.some.inj h
      subst hst htr
      rw [dispatchStep_step_count, planStep_step_count]
      simp
    · obtain ⟨⟨st', tr'⟩, hl, hf⟩ := Option.map_eq_some'.mp h
      obtain ⟨hst, htr⟩ := Prod.mk.injEq .. ▸ hf
      subst hst htr
      have hrec := ih (k + 1) _ _ _ hl
      rw [dispatchStep_step_count, planStep_step_count] at hrec
      simp at hrec
      simp [hrec]
      omega

theorem loop_count_le (plans : Nat → Option PlanJson) (max_steps : Nat) :
    ∀ (fuel k : Nat) (s st : CardState) (tr : List Dispatch),
      s.step_count.getD 0 < max_steps →
      loop plans max_steps fuel k s = some (st, tr) →
      st.step_count.getD 0 ≤ max_steps := by
  intro fuel
  induction fuel with
  | zero => intro k s st tr hlt h; simp [loop] at h
  | succ n ih =>
    intro k s st tr hlt h
    rw [loop] at h
    dsimp only at h
    split_ifs at h with h1 h2
    · obtain ⟨hst, _⟩ := Prod.mk.injEq .. ▸ Option.some.inj h
      subst hst
      rw [planStep_step_count]
      omega
    · obtain ⟨hst, _⟩ := Prod.mk.injEq .. ▸ Option.some.inj h
      subst hst
      rw [dispatchStep_step_count, planStep_step_count]
      simp
      omega
    · obtain ⟨⟨st', tr'⟩, hl, hf⟩ := Option.map_eq_some'.mp h
      obtain ⟨hst, _⟩ := Prod.mk.injEq .. ▸ hf
      subst hst
      have hlt3 := route_after_tool_ne_endT h2
      exact ih (k + 1) _ _ _ hlt3 hl

theorem loop_validated_true (plans : Nat → Option PlanJson) (max_steps : Nat) :
    ∀ (fuel k : Nat) (s st : CardState) (tr : List Dispatch),
      s.validated = some true →
      loop plans max_steps fuel k s = some (st, tr) →
      st.validated = some true := by
  intro fuel
  induction fuel with
  | zero => intro k s st tr hv h; simp [loop] at h
  | succ n ih =>
    intro k s st tr hv h
    rw [loop] at h
    dsimp only at h
    split_ifs at h with h1 h2
    · obtain ⟨hst, _⟩ := Prod.mk.injEq .. ▸ Option.some.inj h
      subst hst
      rw [planStep_validated]
      exact hv
    · obtain ⟨hst, _⟩ := Prod.mk.injEq .. ▸ Option.some.inj h
      subst hst
      exact dispatchStep_validated_true (by rw [planStep_validated]; exact hv)
    · obtain ⟨⟨st', tr'⟩, hl, hf⟩ := Option.map_eq_some'.mp h
      obtain ⟨hst, _⟩ := Prod.mk.injEq .. ▸ hf
      subst hst
      exact ih (k + 1) _ _ _ (dispatchStep_validated_true (by rw [planStep_validated]; exact hv)) hl

theorem loop_dispatch_safe (plans : Nat → Option PlanJson) (max_steps : Nat) :
    ∀ (fuel k : Nat) (s st : CardState) (tr : List Dispatch),
      loop plans max_steps fuel k s = some (st, tr) →
      ∀ d ∈ tr, d.preValidated = false →
        d.action ≠ "replace" ∧ d.action ≠ "cancel"
          ∧ d.tool ≠ some Tool.replaceT ∧ d.tool ≠ some Tool.cancelT := by
  intro fuel
  induction fuel with
  | zero => intro k s st tr h; simp [loop] at h
  | succ n ih =>
    intro k s st tr h
    rw [loop] at h
    dsimp only at h
    have head : ∀ d, d = dispatchOf (planStep (plans k) s) → d.preValidated = false →
        d.action ≠ "replace" ∧ d.action ≠ "cancel"
          ∧ d.tool ≠ some Tool.replaceT ∧ d.tool ≠ some Tool.cancelT := by
      intro d hd hpre
      subst hd
      unfold dispatchOf at hpre ⊢
      dsimp only at hpre ⊢
      rw [planStep_validated] at hpre
      have hg := guard_safe_aux (plans k) s hpre
      rw [planStep_next_action]
      obtain ⟨v, hv⟩ := planner_node_next_action_some (plans k) s
      rw [hv]
      rw [hv] at hg
      have hvr : v ≠ "replace" := fun hc => hg.1 (by rw [hc])
      have hvc : v ≠ "cancel" := fun hc => hg.2 (by rw [hc])
      have hna : (planStep (plans k) s).next_action.getD "finish" = v := by
        rw [planStep_next_action, hv]; rfl
      have hit := invokedTool_not_destructive (s := planStep (plans k) s)
        (hna ▸ hvr) (hna ▸ hvc)
      simp only [Option.getD_some]
      exact ⟨hvr, hvc, hit.1, hit.2⟩
    split_ifs at h with h1 h2
    · obtain ⟨_, htr⟩ := Prod.mk.injEq .. ▸ Option.some.inj h
      subst htr
      intro d hd
      simp at hd
    · obtain ⟨_, htr⟩ := Prod.mk.injEq .. ▸ Option.some.inj h
      subst htr
      intro d hd hpre
      simp at hd
      exact head d hd hpre
    · obtain ⟨⟨st', tr'⟩, hl, hf⟩ := Option.map_eq_some'.mp h
      obtain ⟨_, htr⟩ := Prod.mk.injEq .. ▸ hf
      subst htr
      intro d hd hpre
      rcases List.mem_cons.mp hd with hd0 | hdtail
      · exact head d hd0 hpre
      · exact ih (k + 1) _ _ _ hl d hdtail hpre


theorem planner_node_intent (r : Option PlanJson) (s : CardState) :
    (planner_node r s).intent = (planner_agent r s).intent := by
  unfold planner_node
  dsimp only
  split <;> rfl

/-- C1: after the guard runs, if `validated` is false then the decision's
`next_action` is neither `replace` nor `cancel`; consequently, over any whole
run, no destructive operation is dispatched while `validated` is false in the
pre-dispatch state, regardless of what the planner proposed. -/
theorem guard_blocks_destructive_pre_validation :
    (∀ (r : Option PlanJson) (s : CardState), s.validated.getD false = false →
      (planner_node r s).next_action ≠ some "replace"
        ∧ (planner_node r s).next_action ≠ some "cancel")
    ∧ (∀ (ir : Option IntentJson) (plans : Nat → Option PlanJson) (ui : String)
        (n : Nat) (st : CardState) (tr : List Dispatch),
        run ir plans ui n = some (st, tr) →
        ∀ d ∈ tr, d.preValidated = false →
          d.action ≠ "replace" ∧ d.action ≠ "cancel"
            ∧ d.tool ≠ some Tool.replaceT ∧ d.tool ≠ some Tool.cancelT) := by
  constructor
  · exact guard_safe_aux
  · intro ir plans ui n st tr h
    unfold run at h
    exact loop_dispatch_safe plans n (n + 1) 0 _ st tr h

theorem guard_blocks_destructive_pre_validation_witness :
    (planner_node (some { next_action := some "cancel" }) {}).next_action ≠ some "cancel" :=
  (guard_blocks_destructive_pre_validation.1 (some { next_action := some "cancel" }) {} rfl).2

/-- C2 counterexample: with budget `max_steps = 0` the run still performs one
dispatch cycle, and the final `step_count` is `1 > 0 = max_steps`; the claim
"for every run, `step_count` in the final state is at most `max_steps`" fails
at this input. -/
theorem final_step_count_exceeds_zero_budget :
    run (some {}) alwaysValidatePlan "hi" 0
        = some ({ user_input := some "hi", intent := some "unknown", intent_reason := some ""
                  validated := some true, validation_reason := some "Mock validation passed."
                  assistant_message := some "", next_action := some "validate"
                  plan_reason := some "", step_count := some 1 },
                [⟨false, "validate", some Tool.validateT⟩])
      ∧ ¬ ((1 : Nat) ≤ 0) := by
  exact ⟨by decide, by decide⟩

/-- C2 (amended): for every run with `max_steps ≥ 1` (which includes the
default 6), and every sequence of planner outputs, the loop terminates — with
at most `max_steps` dispatch cycles — and the final `step_count` is at most
`max_steps`. -/
theorem run_terminates_within_budget :
    ∀ (ir : Option IntentJson) (plans : Nat → Option PlanJson) (ui : String) (n : Nat),
      1 ≤ n →
      ∃ st tr, run ir plans ui n = some (st, tr)
        ∧ st.step_count.getD 0 ≤ n ∧ tr.length ≤ n := by
  intro ir plans ui n hn
  have hc0 : (applyUpdate (initState ui) (intent_agent ir)).step_count = none := by
    cases ir <;> rfl
  have hsome := loop_isSome plans n (n + 1) 0 (applyUpdate (initState ui) (intent_agent ir))
    (by rw [hc0]; simp) (by rw [hc0]; simp)
  obtain ⟨⟨st, tr⟩, hl⟩ := Option.isSome_iff_exists.mp hsome
  refine ⟨st, tr, hl, ?_, ?_⟩
  · exact loop_count_le plans n (n + 1) 0 _ st tr (by rw [hc0]; simpa using hn) hl
  · have hcount := loop_step_count plans n (n + 1) 0 _ st tr hl
    have hle := loop_count_le plans n (n + 1) 0 _ st tr (by rw [hc0]; simpa using hn) hl
    rw [hc0] at hcount
    simp at hcount
    omega

theorem run_terminates_within_budget_witness :
    ∃ st tr, run (some {}) alwaysValidatePlan "hi" 6 = some (st, tr)
      ∧ st.step_count.getD 0 ≤ 6 ∧ tr.length ≤ 6 :=
  run_terminates_within_budget (some {}) alwaysValidatePlan "hi" 6 (by decide)


/-- C3 counterexample: a planner response with the unrecognized action
`"explode"` is not treated as `finish`: the decision keeps `next_action =
"explode"`, the routing after the planner goes to the tool node rather than
`END`, and a whole run with such a planner performs six dispatch cycles
(instead of terminating directly from planning with none). -/
theorem unrecognized_action_routes_to_tool :
    (planner_agent (some { next_action := some "explode" }) {}).next_action = some "explode"
      ∧ route_after_planner (planStep (some { next_action := some "explode" }) {}) = Target.toolT
      ∧ Target.toolT ≠ Target.endT
      ∧ run (some {}) alwaysExplodePlan "hi" 6
          = some ({ user_input := some "hi", intent := some "unknown", intent_reason := some ""
                    assistant_message := some "", next_action := some "explode"
                    plan_reason := some "", step_count := some 6 },
                  List.replicate 6 (⟨false, "explode", none⟩ : Dispatch)) := by
  refine ⟨by decide, by decide, by decide, by decide⟩

/-- C3 (amended): a missing `next_action` defaults to `finish`; an
unrecognized `next_action` value is passed through unchanged instead — the
workflow routes to the tool-dispatch step, which invokes no operation and
returns the empty update (the loop then continues via the step counter). -/
theorem unrecognized_action_noop_loop :
    ∀ (p : PlanJson) (s : CardState),
      (p.next_action = none → (planner_agent (some p) s).next_action = some "finish")
      ∧ (∀ v, p.next_action = some v →
          v ∉ (["validate", "replace", "cancel", "finish"] : List String) →
          (planner_node (some p) s).next_action = some v
            ∧ route_after_planner (planStep (some p) s) = Target.toolT
            ∧ tool_node (planStep (some p) s) = {}
            ∧ invokedTool (planStep (some p) s) = none) := by
  intro p s
  constructor
  · intro h
    simp [planner_agent, h]
  · intro v hv hmem
    simp only [List.mem_cons, List.not_mem_nil, or_false, not_or] at hmem
    obtain ⟨hv1, hv2, hv3, hv4⟩ := hmem
    have hpa : (planner_agent (some p) s).next_action = some v := by
      simp [planner_agent, hv]
    have hpn : (planner_node (some p) s).next_action = some v := by
      unfold planner_node
      dsimp only
      rw [if_neg]
      · exact hpa
      · rintro ⟨hor, -⟩
        rcases hor with hc | hc <;> rw [hpa] at hc <;> simp at hc
        · exact hv2 hc
        · exact hv3 hc
    have hact : (planStep (some p) s).next_action.getD "finish" = v := by
      rw [planStep_next_action, hpn]
      rfl
    refine ⟨hpn, ?_, ?_, ?_⟩
    · unfold route_after_planner
      rw [planStep_next_action, hpn, if_neg]
      simp [hv4]
    · unfold tool_node
      dsimp only
      rw [hact, if_neg hv1, if_neg hv2, if_neg hv3]
    · unfold invokedTool
      dsimp only
      rw [hact, if_neg hv1, if_neg hv2, if_neg hv3]

theorem unrecognized_action_noop_loop_witness :
    (planner_node (some { next_action := some "explode" }) {}).next_action = some "explode"
      ∧ route_after_planner (planStep (some { next_action := some "explode" }) {}) = Target.toolT
      ∧ tool_node (planStep (some { next_action := some "explode" }) {}) = {}
      ∧ invokedTool (planStep (some { next_action := some "explode" }) {}) = none :=
  (unrecognized_action_noop_loop { next_action := some "explode" } {}).2 "explode" rfl (by decide)

/-- C4: only the step counter touches `step_count` — the classifier, planner
(with guard) and tool dispatcher leave it absent from their updates, the step
node sets it to exactly the old value plus one — and over a whole run the
final `step_count` equals the number of dispatch cycles performed
(dispatch → increment → decide, one increment per dispatch). -/
theorem step_count_counts_dispatches :
    (∀ r : Option IntentJson, (intent_agent r).step_count = none)
    ∧ (∀ (r : Option PlanJson) (s : CardState), (planner_node r s).step_count = none)
    ∧ (∀ s : CardState, (tool_node s).step_count = none)
    ∧ (∀ s : CardState, (applyUpdate s (step_node s)).step_count = some (s.step_count.getD 0 + 1))
    ∧ (∀ (ir : Option IntentJson) (plans : Nat → Option PlanJson) (ui : String)
        (n : Nat) (st : CardState) (tr : List Dispatch),
        run ir plans ui n = some (st, tr) → st.step_count.getD 0 = tr.length) := by
  refine ⟨fun r => by cases r <;> rfl, planner_node_step_count, tool_node_step_count,
    fun s => by simp [applyUpdate, step_node], ?_⟩
  intro ir plans ui n st tr h
  unfold run at h
  have hcount := loop_step_count plans n (n + 1) 0 _ st tr h
  have hc0 : (applyUpdate (initState ui) (intent_agent ir)).step_count = none := by
    cases ir <;> rfl
  rw [hc0] at hcount
  simpa using hcount

theorem step_count_counts_dispatches_witness :
    ({ user_input := some "hi", intent := some "unknown", intent_reason := some ""
       validated := some true, validation_reason := some "Mock validation passed."
       assistant_message := some "", next_action := some "validate"
       plan_reason := some "", step_count := some 6 } : CardState).step_count.getD 0
      = ((⟨false, "validate", some Tool.validateT⟩ : Dispatch)
          :: List.replicate 5 (⟨true, "validate", some Tool.validateT⟩ : Dispatch)).length :=
  step_count_counts_dispatches.2.2.2.2 (some {}) alwaysValidatePlan "hi" 6 _ _ (by decide)


/-- C5 counterexample: a gateway response that parses as JSON but lacks the
`intent` key is a parse failure per the claim, yet the classifier's reason is
the parsed `reason` default `""`, not `"parse_error"`. -/
theorem intent_missing_field_reason_not_parse_error :
    intent_agent (some {}) = { intent := some "unknown", intent_reason := some "" }
      ∧ (intent_agent (some {})).intent_reason ≠ some "parse_error" := by
  exact ⟨by decide, by decide⟩

/-- C5 (amended): the classifier is total (never raises past its boundary);
on a JSON parse failure it returns intent `unknown` with reason
`"parse_error"`, while on JSON that parses but lacks the `intent` key it
returns intent `unknown` with the parsed `reason` (defaulting to `""`), not
`"parse_error"`. -/
theorem intent_agent_fallbacks :
    intent_agent none = { intent := some "unknown", intent_reason := some "parse_error" }
      ∧ ∀ p : IntentJson, p.intent = none →
          (intent_agent (some p)).intent = some "unknown"
            ∧ (intent_agent (some p)).intent_reason = some (p.reason.getD "") := by
  refine ⟨rfl, ?_⟩
  intro p hp
  simp [intent_agent, hp]

theorem intent_agent_fallbacks_witness :
    (intent_agent (some { intent := none, reason := some "hello" })).intent = some "unknown"
      ∧ (intent_agent (some { intent := none, reason := some "hello" })).intent_reason
          = some ((some "hello").getD "") :=
  intent_agent_fallbacks.2 { intent := none, reason := some "hello" } rfl

/-- C6: on a planner-side parse failure the planner returns exactly the fixed
safe decision — `next_action = finish`, the generic apology as the
assistant-visible message, rationale `"parse_error"` — and the guard passes
it through unchanged; the function is total, so nothing is raised. -/
theorem planner_parse_failure_safe_decision :
    ∀ s : CardState,
      planner_agent none s
          = { next_action := some "finish",
              assistant_message := some "I'm sorry, I couldn't process that.",
              plan_reason := some "parse_error" }
        ∧ planner_node none s = planner_agent none s := by
  intro s
  refine ⟨rfl, ?_⟩
  unfold planner_node
  dsimp only
  rw [if_neg]
  rintro ⟨hor, -⟩
  rcases hor with hc | hc <;> simp [planner_agent] at hc

/-- C7: the dispatcher maps `validate` to an update holding `validated =
true` and a `validation_reason`, maps `replace` and `cancel` to updates
holding only a confirmation `result` text, and maps `finish`, an absent key,
or any unrecognized value to the empty update with no operation invoked;
`result` is set only by `replace` or `cancel`. -/
theorem tool_node_dispatch_table :
    ∀ s : CardState,
      (s.next_action = some "validate" →
        tool_node s = { validated := some true, validation_reason := some "Mock validation passed." }
          ∧ invokedTool s = some Tool.validateT)
      ∧ (s.next_action = some "replace" →
        tool_node s
            = { result := some "✅ Replacement completed. A new card will arrive in 5–7 business days." }
          ∧ invokedTool s = some Tool.replaceT)
      ∧ (s.next_action = some "cancel" →
        tool_node s = { result := some "🛑 Cancellation completed. Your card is now inactive." }
          ∧ invokedTool s = some Tool.cancelT)
      ∧ (s.next_action.getD "finish" ∉ (["validate", "replace", "cancel"] : List String) →
        tool_node s = {} ∧ invokedTool s = none)
      ∧ ((tool_node s).result ≠ none →
        s.next_action = some "replace" ∨ s.next_action = some "cancel") := by
  intro s
  refine ⟨?_, ?_, ?_, ?_, ?_⟩
  · intro h
    refine ⟨?_, ?_⟩
    · unfold tool_node; rw [h]; rfl
    · unfold invokedTool; rw [h]; rfl
  · intro h
    refine ⟨?_, ?_⟩
    · unfold tool_node; rw [h]; rfl
    · unfold invokedTool; rw [h]; rfl
  · intro h
    refine ⟨?_, ?_⟩
    · unfold tool_node; rw [h]; rfl
    · unfold invokedTool; rw [h]; rfl
  · intro h
    simp only [List.mem_cons, List.not_mem_nil, or_false, not_or] at h
    obtain ⟨h1, h2, h3⟩ := h
    refine ⟨?_, ?_⟩
    · unfold tool_node; dsimp only; rw [if_neg h1, if_neg h2, if_neg h3]
    · unfold invokedTool; dsimp only; rw [if_neg h1, if_neg h2, if_neg h3]
  · intro hres
    unfold tool_node at hres
    dsimp only at hres
    split_ifs at hres with h1 h2 h3
    · exact absurd rfl hres
    · left
      cases hna : s.next_action with
      | none => rw [hna] at h2; simp at h2
      | some w => rw [hna] at h2; simp at h2; rw [h2]
    · right
      cases hna : s.next_action with
      | none => rw [hna] at h3; simp at h3
      | some w => rw [hna] at h3; simp at h3; rw [h3]
    · exact absurd rfl hres

theorem tool_node_dispatch_table_witness :
    tool_node { next_action := some "replace" }
        = { result := some "✅ Replacement completed. A new card will arrive in 5–7 business days." }
      ∧ invokedTool { next_action := some "replace" } = some Tool.replaceT :=
  (tool_node_dispatch_table { next_action := some "replace" }).2.1 rfl


/-- C8 counterexample: when the planner's rationale is already 500 characters
long, the guard's rewrite leaves the rationale equal to the old text — the
annotation is truncated away entirely (the slice `[:500]` keeps the prefix,
i.e. the older rationale is retained in preference to the annotation). -/
theorem guard_annotation_dropped_at_500 :
    (planner_node (some { next_action := some "cancel", reason := some (String.mk (List.replicate 500 'a')) }) {}).plan_reason
        = some (String.mk (List.replicate 500 'a'))
      ∧ ¬ (guardNote.data <:+ (String.mk (List.replicate 500 'a')).data)
      ∧ guardNote ≠ "" := by
  refine ⟨?_, ?_, by decide⟩
  · unfold planner_node
    dsimp only
    rw [if_pos ⟨Or.inr rfl, rfl⟩]
    dsimp only
    congr 1
  · intro h
    have hm : 'G' ∈ List.replicate 500 'a' := h.subset (by decide)
    have hGa := List.eq_of_mem_replicate hm
    exact absurd hGa (by decide)

/-- C8 (amended): when the guard rewrites a `replace`/`cancel` decision, the
new rationale is the old rationale with the fixed annotation appended, then
sliced to its first 500 characters — so the rationale is bounded at 500
characters, but when truncation occurs it is the annotation that is cut
(the older rationale, being the prefix, is retained in preference to it). -/
theorem guard_annotation_truncation :
    ∀ (r : Option PlanJson) (s : CardState),
      s.validated.getD false = false →
      ((planner_agent r s).next_action = some "replace"
        ∨ (planner_agent r s).next_action = some "cancel") →
      (planner_node r s).plan_reason
          = some (sliceTo ((planner_agent r s).plan_reason.getD "" ++ guardNote) 500)
        ∧ ∀ str, (planner_node r s).plan_reason = some str → str.length ≤ 500 := by
  intro r s hv hor
  have heq : (planner_node r s).plan_reason
      = some (sliceTo ((planner_agent r s).plan_reason.getD "" ++ guardNote) 500) := by
    unfold planner_node
    dsimp only
    rw [if_pos ⟨hor, hv⟩]
  refine ⟨heq, ?_⟩
  intro str hstr
  rw [heq] at hstr
  rw [← Option.some.inj hstr]
  show ((((planner_agent r s).plan_reason.getD "" ++ guardNote)).data.take 500).length ≤ 500
  simp

theorem guard_annotation_truncation_witness :
    (planner_node (some { next_action := some "replace", reason := some "why" }) {}).plan_reason
      = some ("why" ++ guardNote) := by
  have h := (guard_annotation_truncation
    (some { next_action := some "replace", reason := some "why" }) {} rfl (Or.inl rfl)).1
  rw [h]
  decide

/-- C9: `validated` is never reset within a run — the classifier, planner
(with guard) and step counter never put `validated` in their updates, the
dispatcher's update carries `validated` only as `true`, merging any such
update into a state with `validated = true` keeps it `true`, and along any
loop execution a state with `validated = true` yields a final state with
`validated = true`. -/
theorem validated_never_reset :
    (∀ r : Option IntentJson, (intent_agent r).validated = none)
    ∧ (∀ (r : Option PlanJson) (s : CardState), (planner_node r s).validated = none)
    ∧ (∀ s : CardState, (tool_node s).validated = none ∨ (tool_node s).validated = some true)
    ∧ (∀ s : CardState, (step_node s).validated = none)
    ∧ (∀ s u : CardState, s.validated = some true →
        u.validated = none ∨ u.validated = some true →
        (applyUpdate s u).validated = some true)
    ∧ (∀ (plans : Nat → Option PlanJson) (n fuel k : Nat) (s st : CardState)
        (tr : List Dispatch), s.validated = some true →
        loop plans n fuel k s = some (st, tr) → st.validated = some true) := by
  refine ⟨fun r => by cases r <;> rfl, planner_node_validated, tool_node_validated,
    step_node_validated, ?_, ?_⟩
  · intro s u hs hu
    rcases hu with hu | hu <;> simp [applyUpdate, hu, hs]
  · intro plans n fuel k s st tr hs h
    exact loop_validated_true plans n fuel k s st tr hs h

theorem validated_never_reset_witness :
    (applyUpdate { validated := some true } (tool_node { validated := some true })).validated
      = some true :=
  validated_never_reset.2.2.2.2.1 { validated := some true }
    (tool_node { validated := some true }) rfl (by decide)

/-- C10 counterexample: when the pre-state has no `intent` key and the planner
response parses but omits `intent`, the merged state's intent becomes
`"unknown"` rather than remaining equal to the (absent) pre-existing value. -/
theorem intent_default_overwrites_absent_intent :
    (planStep (some {}) {}).intent = some "unknown"
      ∧ ({} : CardState).intent = none
      ∧ (planStep (some {}) {}).intent ≠ ({} : CardState).intent := by
  exact ⟨by decide, by decide, by decide⟩

/-- C10 (amended): if parsing fails entirely, the planner's update omits
`intent`, so the merged intent always equals the pre-existing one; if the
JSON parses but omits the `intent` key, the merged intent equals the
pre-existing intent whenever one is present (as it always is after
classification) — only an absent pre-state intent is replaced, by
`"unknown"`. -/
theorem planner_preserves_intent :
    ∀ (s : CardState) (p : PlanJson),
      (planStep none s).intent = s.intent
      ∧ (p.intent = none → s.intent.isSome →
          (planStep (some p) s).intent = s.intent) := by
  intro s p
  constructor
  · simp [planStep, applyUpdate, planner_node_intent, planner_agent]
  · intro hp hs
    obtain ⟨i, hi⟩ := Option.isSome_iff_exists.mp hs
    simp [planStep, applyUpdate, planner_node_intent, planner_agent, hp, hi]

theorem planner_preserves_intent_witness :
    (planStep (some {}) { intent := some "cancel" }).intent
      = ({ intent := some "cancel" } : CardState).intent :=
  (planner_preserves_intent { intent := some "cancel" } {}).2 rfl rfl

end CardAgent
